import Mathlib

/-!
Shallow embedding of the policy-matching recommendation engine of the
HR_FLASK repository (directory `src/gyu`): the text preprocessor
(`services/text_preprocessor.py`) and the two recommender variants
(`models/tfidf_recommender.py`, lexical, and `models/kobert_recommender.py`,
embedding based).

Modelling conventions:
* Python floats are modelled by `ℚ`; the literal weights 0.5 / 0.7 / 0.3
  and 100 are exact decimals.
* The external similarity backends (scikit-learn TfidfVectorizer + cosine
  similarity, and the SentenceTransformer encoder with `util.cos_sim`) are
  opaque parameters.  A fallible backend is a function
  `String → String → Option ℚ` where `none` models a raised exception; a
  total parameter `String → String → ℚ` models the backend on inputs where
  it succeeds.  Likewise the tokenizer (Kiwi morphological analysis, or the
  whitespace fallback of `TextPreprocessor.tokenize`) is an opaque
  parameter `String → List String`.
* A Python policy dict becomes a structure with `Option` fields
  (`dict.get(key, default)` is `Option.getD`); the module-level
  `POLICY_KEYWORDS` table becomes a lookup function `String → List String`
  (absent keys yield `[]`, as `POLICY_KEYWORDS.get(name, [])` does).
* Python `needle in haystack` on strings is contiguous-substring
  containment on the code-point lists; `str.lower()` is a per-character
  lowercase map.
* `int(x)` truncates toward zero; slicing `[:n]` is `List.take`;
  `list.sort(key=..., reverse=True)` is the stable descending sort by that
  key, modelled by `List.insertionSort` with the relation
  `fun a b => key b ≤ key a` (any two stable sorts by the same key agree).
-/

namespace HRFlask

/-! ### Numeric helpers -/

/-- Python `int(x)` on a float: truncation toward zero. -/
def pyTrunc (q : ℚ) : ℤ := if 0 ≤ q then ⌊q⌋ else ⌈q⌉

/-- Rounding to the nearest integer with Python's half-to-even tie rule. -/
def roundHalfEven (q : ℚ) : ℤ :=
  let f := ⌊q⌋
  let r := q - (f : ℚ)
  if r < 1/2 then f
  else if 1/2 < r then f + 1
  else if f % 2 = 0 then f else f + 1

/-- Python `round(x, 4)` modelled over `ℚ`. -/
def round4 (q : ℚ) : ℚ := (roundHalfEven (q * 10000) : ℚ) / 10000

/-! ### String helpers -/

/-- Contiguous substring test on code-point lists, structural so that the
kernel can evaluate it. -/
def containsSub (needle : List Char) : List Char → Bool
  | [] => needle.isEmpty
  | c :: rest => needle.isPrefixOf (c :: rest) || containsSub needle rest

/-- Python `needle in haystack` on strings. -/
def occursIn (needle haystack : String) : Bool :=
  containsSub needle.toList haystack.toList

/-- Python `str.lower()` (per-character lowercase; the engine's data is
Korean, where lowercasing is the identity, so the ASCII `Char.toLower` is a
faithful model). -/
def pyLower (s : String) : String := String.mk (s.data.map Char.toLower)

/-! ### Text preprocessor (`services/text_preprocessor.py`) -/

/-- Source `TextPreprocessor.join_texts`: `' '.join(filter(None, texts))` —
space-join the comments after dropping empty (falsy) entries. -/
def join_texts (texts : List String) : String :=
  String.intercalate " " (texts.filter (fun t => t ≠ ""))

/-- Source `TextPreprocessor.analyze_sentiment`: empty text is neutral;
otherwise lowercase the text, count the configured positive and negative
words occurring as substrings, and compare the two counts. -/
def analyze_sentiment (text : String) (positiveWords negativeWords : List String) :
    String :=
  if text = "" then "neutral"
  else
    let textLower := pyLower text
    let positiveCount := (positiveWords.filter (fun w => occursIn w textLower)).length
    let negativeCount := (negativeWords.filter (fun w => occursIn w textLower)).length
    if negativeCount < positiveCount then "positive"
    else if positiveCount < negativeCount then "negative"
    else "neutral"

/-! ### Counter / keyword extraction -/

/-- Helper for `firstSeen`: keep each element not yet seen, in order. -/
def firstSeenAux {α : Type} [DecidableEq α] (seen : List α) : List α → List α
  | [] => []
  | x :: xs =>
      if x ∈ seen then firstSeenAux seen xs else x :: firstSeenAux (x :: seen) xs

/-- Key list of Python's `Counter` in insertion order: the distinct elements
of the list in order of first occurrence. -/
def firstSeen {α : Type} [DecidableEq α] (l : List α) : List α :=
  firstSeenAux [] l

/-- Stable descending sort by a key, the semantics of Python's
`sorted(..., key=key, reverse=True)` and `list.sort(key=key, reverse=True)`. -/
def sortDesc {α β : Type} [LinearOrder β] (key : α → β) (l : List α) : List α :=
  List.insertionSort (fun a b => key b ≤ key a) l

/-- Python `Counter(tokens).most_common(n)`: the (word, count) items in
first-occurrence order, stably sorted by count descending, first `n` kept. -/
def most_common (tokens : List String) (n : ℕ) : List (String × ℕ) :=
  let items := (firstSeen tokens).map (fun w => (w, tokens.count w))
  (sortDesc Prod.snd items).take n

/-- Source `extract_keywords` (textually identical in the two recommenders):
empty text or empty token stream yields `[]`; otherwise the words of
`Counter(tokens).most_common(top_n)`. -/
def extract_keywords (tokenize : String → List String) (text : String)
    (top_n : ℕ := 10) : List String :=
  if text = "" then []
  else
    let tokens := tokenize text
    if tokens = [] then []
    else (most_common tokens top_n).map Prod.fst

/-! ### Data model -/

/-- Policy dict as received from the HTTP layer; `Option` fields model keys
that may be absent (`policy.get("policyName", "")` and
`policy.get("description", policy_name)` supply the defaults). -/
structure Policy where
  policyId : Option ℤ
  policyName : Option String
  description : Option String
deriving DecidableEq

/-- Result dict built by `_match_policy` in both recommenders. -/
structure MatchResult where
  policyId : Option ℤ
  policyName : String
  matchScore : ℤ
  similarityScore : ℚ
  reason : String
  keywords : List String
deriving DecidableEq

/-- Result dict returned by `analyze`; `skipReason` is `some _` exactly when
the Python dict carries the key. -/
structure AnalysisResult where
  recommendations : List MatchResult
  extractedKeywords : List String
  overallSentiment : String
  skipReason : Option String
deriving DecidableEq

/-- The `RECOMMENDATION_CONFIG` entries the orchestrator reads. -/
structure RecommendationConfig where
  minMatchScore : ℤ
  maxRecommendations : ℕ
deriving DecidableEq

/-- Fixed skip message of the negative-sentiment veto branch (identical in
both recommenders). -/
def skipMessage : String := "부정적 평가가 많아 포상 추천 대상에서 제외되었습니다."

/-! ### Lexical variant (`models/tfidf_recommender.py`) -/

/-- Source `TfidfRecommender.calculate_similarity`: empty input on either
side returns 0.0 before touching the vectorizer; otherwise the vectorizer +
cosine backend `m` runs inside `try/except`, any exception (`none`) being
converted to 0.0. -/
def tfidfCalculateSimilarity (m : String → String → Option ℚ)
    (text1 text2 : String) : ℚ :=
  if text1 = "" ∨ text2 = "" then 0
  else
    match m text1 text2 with
    | some v => v
    | none => 0

/-- Clause assembly shared verbatim by the two `_generate_reason` methods:
after the similarity-band clause, append a clause naming the first 3 matched
keywords when any matched, fall back to a default clause when no clause
applies, and join the clauses with a period (plus a trailing period). -/
def reasonClauses (bandClauses : List String) (matchedKeywords : List String) :
    String :=
  let keywordClauses : List String :=
    if matchedKeywords = [] then []
    else ["핵심 키워드 '" ++ String.intercalate "', '" (matchedKeywords.take 3) ++ "' 발견"]
  let reasons := bandClauses ++ keywordClauses
  let reasons := if reasons = [] then ["기본 조건 충족"] else reasons
  String.intercalate ". " reasons ++ "."

/-- Source `TfidfRecommender._generate_reason`: a high band at 0.5 and a
medium band at 0.3 (no weak band), then the shared clause assembly. -/
def tfidfGenerateReason (policyName : String) (matchedKeywords : List String)
    (similarity : ℚ) : String :=
  reasonClauses
    (if 0.5 ≤ similarity then ["'" ++ policyName ++ "' 정책과 높은 연관성 확인"]
     else if 0.3 ≤ similarity then ["'" ++ policyName ++ "' 정책과 연관성 확인"]
     else [])
    matchedKeywords

/-- Source `TfidfRecommender._match_policy`.  Note the similarity text: the
source passes `policy_description` alone (not the name-dot-description
concatenation the embedding variant builds). -/
def tfidfMatchPolicy (m : String → String → Option ℚ)
    (policyKeywordsTable : String → List String) (commentsText : String)
    (policy : Policy) (_extractedKeywords : List String) : MatchResult :=
  let policyName := policy.policyName.getD ""
  let policyDescription := policy.description.getD policyName
  let policyKeywords := policyKeywordsTable policyName
  let similarityScore := tfidfCalculateSimilarity m commentsText policyDescription
  let matchedKeywords := policyKeywords.filter (fun k => occursIn k commentsText)
  let keywordScore : ℚ :=
    if policyKeywords = [] then 0
    else (matchedKeywords.length : ℚ) / (policyKeywords.length : ℚ)
  let finalScore : ℤ :=
    min 100 (pyTrunc ((similarityScore * 0.5 + keywordScore * 0.5) * 100))
  { policyId := policy.policyId
    policyName := policyName
    matchScore := finalScore
    similarityScore := round4 similarityScore
    reason := tfidfGenerateReason policyName matchedKeywords similarityScore
    keywords := matchedKeywords }

/-- Source `TfidfRecommender.analyze`: empty-input short circuit, sentiment
veto, per-policy scoring filtered by the minimum score, stable descending
sort by match score, truncation to the configured maximum. -/
def tfidfAnalyze (tokenize : String → List String)
    (m : String → String → Option ℚ) (cfg : RecommendationConfig)
    (positiveWords negativeWords : List String)
    (policyKeywordsTable : String → List String)
    (comments : List String) (policies : List Policy) : AnalysisResult :=
  if comments = [] ∨ policies = [] then
    { recommendations := [], extractedKeywords := [],
      overallSentiment := "neutral", skipReason := none }
  else
    let combined := join_texts comments
    let extracted := extract_keywords tokenize combined
    let sentiment := analyze_sentiment combined positiveWords negativeWords
    if sentiment = "negative" then
      { recommendations := [], extractedKeywords := extracted,
        overallSentiment := sentiment, skipReason := some skipMessage }
    else
      let scored := policies.map
        (fun p => tfidfMatchPolicy m policyKeywordsTable combined p extracted)
      let kept := scored.filter (fun r => cfg.minMatchScore ≤ r.matchScore)
      let sorted := sortDesc MatchResult.matchScore kept
      { recommendations := sorted.take cfg.maxRecommendations,
        extractedKeywords := extracted, overallSentiment := sentiment,
        skipReason := none }

/-! ### Embedding variant (`models/kobert_recommender.py`) -/

/-- Source `KoBertRecommender.calculate_similarity`: empty input on either
side returns 0.0 before touching the model; the encode + cosine backend `m`
runs with NO try/except, so a raised exception (`none`) propagates. -/
def kobertCalculateSimilarity (m : String → String → Option ℚ)
    (text1 text2 : String) : Option ℚ :=
  if text1 = "" ∨ text2 = "" then some 0
  else m text1 text2

/-- Source `KoBertRecommender._generate_reason`: a high band at 0.5, a
medium band at 0.3 and a weak band at 0.1, then the shared clause assembly. -/
def kobertGenerateReason (policyName : String) (matchedKeywords : List String)
    (similarity : ℚ) : String :=
  reasonClauses
    (if 0.5 ≤ similarity then
      ["'" ++ policyName ++ "' 정책과 높은 의미적 연관성 확인 (BERT 분석)"]
     else if 0.3 ≤ similarity then ["'" ++ policyName ++ "' 정책과 연관성 확인"]
     else if 0.1 ≤ similarity then ["'" ++ policyName ++ "' 정책과 약한 연관성"]
     else [])
    matchedKeywords

/-- The text the embedding variant encodes for a policy:
`f"{policy_name}. {policy_description}"`. -/
def kobertPolicyText (policy : Policy) : String :=
  let policyName := policy.policyName.getD ""
  let policyDescription := policy.description.getD policyName
  policyName ++ ". " ++ policyDescription

/-- Source `KoBertRecommender._match_policy` on the happy path, with the
encode-both-texts-and-cosine step abstracted as the total function `sim`.
The raw cosine score is normalized from [-1, 1] to [0, 1] before fusing but
handed raw to `_generate_reason` and to `round`. -/
def kobertMatchPolicy (sim : String → String → ℚ)
    (policyKeywordsTable : String → List String) (commentsText : String)
    (policy : Policy) (_extractedKeywords : List String) : MatchResult :=
  let policyName := policy.policyName.getD ""
  let policyKeywords := policyKeywordsTable policyName
  let similarityScore := sim commentsText (kobertPolicyText policy)
  let matchedKeywords := policyKeywords.filter (fun k => occursIn k commentsText)
  let keywordScore : ℚ :=
    if policyKeywords = [] then 0
    else (matchedKeywords.length : ℚ) / (policyKeywords.length : ℚ)
  let normalizedSimilarity := (similarityScore + 1) / 2
  let finalScore : ℤ :=
    min 100 (pyTrunc ((normalizedSimilarity * 0.7 + keywordScore * 0.3) * 100))
  { policyId := policy.policyId
    policyName := policyName
    matchScore := finalScore
    similarityScore := round4 similarityScore
    reason := kobertGenerateReason policyName matchedKeywords similarityScore
    keywords := matchedKeywords }

/-- Source `KoBertRecommender._match_policy` with a fallible encode backend:
no try/except protects the `model.encode` / `util.cos_sim` calls, so a
raised exception propagates out of the method. -/
def kobertMatchPolicyE (m : String → String → Option ℚ)
    (policyKeywordsTable : String → List String) (commentsText : String)
    (policy : Policy) (_extractedKeywords : List String) : Option MatchResult :=
  match m commentsText (kobertPolicyText policy) with
  | none => none
  | some s =>
      some (kobertMatchPolicy (fun _ _ => s) policyKeywordsTable commentsText
        policy _extractedKeywords)

/-- Source `KoBertRecommender.analyze` on the happy path (total `sim`); the
orchestration is line-for-line that of the lexical variant apart from the
match-policy step. -/
def kobertAnalyze (tokenize : String → List String)
    (sim : String → String → ℚ) (cfg : RecommendationConfig)
    (positiveWords negativeWords : List String)
    (policyKeywordsTable : String → List String)
    (comments : List String) (policies : List Policy) : AnalysisResult :=
  if comments = [] ∨ policies = [] then
    { recommendations := [], extractedKeywords := [],
      overallSentiment := "neutral", skipReason := none }
  else
    let combined := join_texts comments
    let extracted := extract_keywords tokenize combined
    let sentiment := analyze_sentiment combined positiveWords negativeWords
    if sentiment = "negative" then
      { recommendations := [], extractedKeywords := extracted,
        overallSentiment := sentiment, skipReason := some skipMessage }
    else
      let scored := policies.map
        (fun p => kobertMatchPolicy sim policyKeywordsTable combined p extracted)
      let kept := scored.filter (fun r => cfg.minMatchScore ≤ r.matchScore)
      let sorted := sortDesc MatchResult.matchScore kept
      { recommendations := sorted.take cfg.maxRecommendations,
        extractedKeywords := extracted, overallSentiment := sentiment,
        skipReason := none }

end HRFlask

namespace HRFlask

/-! ### Supporting lemmas -/

theorem containsSub_eq_true_iff (n : List Char) :
    ∀ h : List Char, containsSub n h = true ↔ n <:+: h := by
  intro h
  induction h with
  | nil => simp [containsSub, List.isEmpty_iff, List.infix_nil]
  | cons c rest ih =>
      simp [containsSub, List.isPrefixOf_iff_prefix, ih, List.infix_cons_iff]

theorem occursIn_eq_true_iff (n h : String) :
    occursIn n h = true ↔ n.toList <:+: h.toList :=
  containsSub_eq_true_iff n.toList h.toList

theorem occursIn_eq_decide (n h : String) :
    occursIn n h = decide (n.toList <:+: h.toList) := by
  by_cases hp : n.toList <:+: h.toList
  · rw [(occursIn_eq_true_iff n h).mpr hp, decide_eq_true hp]
  · rw [Bool.eq_false_iff.mpr fun hc => hp ((occursIn_eq_true_iff n h).mp hc),
      decide_eq_false hp]

theorem sortDesc_perm {α β : Type} [LinearOrder β] (key : α → β) (l : List α) :
    List.Perm (sortDesc key l) l :=
  List.perm_insertionSort _ l

theorem sortDesc_sorted {α β : Type} [LinearOrder β] (key : α → β) (l : List α) :
    (sortDesc key l).Sorted (fun a b => key b ≤ key a) := by
  haveI : IsTotal α (fun a b => key b ≤ key a) := ⟨fun a b => le_total (key b) (key a)⟩
  haveI : IsTrans α (fun a b => key b ≤ key a) :=
    ⟨fun _ _ _ h1 h2 => le_trans h2 h1⟩
  exact List.sorted_insertionSort _ l

theorem filter_orderedInsert_byKey {α β : Type} [LinearOrder β] [DecidableEq β]
    (key : α → β) (c : β) (a : α) :
    ∀ l : List α,
      (List.orderedInsert (fun x y => key y ≤ key x) a l).filter
          (fun x => key x = c) =
        if key a = c then a :: l.filter (fun x => key x = c)
        else l.filter (fun x => key x = c) := by
  intro l
  induction l with
  | nil =>
      simp only [List.orderedInsert, List.filter]
      split <;> simp_all
  | cons b t ih =>
      rw [List.orderedInsert]
      by_cases hr : key b ≤ key a
      · rw [if_pos hr]
        by_cases hc : key a = c
        · simp [List.filter_cons, hc]
        · simp [List.filter_cons, hc]
      · rw [if_neg hr]
        have hab : key a < key b := not_le.mp hr
        by_cases hc : key a = c
        · have hbc : ¬ (key b = c) := by
            rw [← hc]; exact ne_of_gt hab
          rw [if_pos hc]
          simp [List.filter_cons, hbc, ih, hc]
        · rw [if_neg hc]
          simp [List.filter_cons, ih, hc]

theorem filter_sortDesc {α β : Type} [LinearOrder β] [DecidableEq β]
    (key : α → β) (c : β) :
    ∀ l : List α,
      (sortDesc key l).filter (fun x => key x = c) =
        l.filter (fun x => key x = c) := by
  intro l
  induction l with
  | nil => rfl
  | cons a t ih =>
      show (List.orderedInsert _ a (List.insertionSort _ t)).filter _ = _
      rw [filter_orderedInsert_byKey key c a (List.insertionSort _ t)]
      have ih' : (List.insertionSort (fun x y => key y ≤ key x) t).filter
          (fun x => key x = c) = t.filter (fun x => key x = c) := ih
      rw [ih']
      by_cases hc : key a = c
      · simp [List.filter_cons, hc]
      · simp [List.filter_cons, hc]

theorem mem_firstSeenAux {α : Type} [DecidableEq α] (a : α) :
    ∀ (l seen : List α), a ∈ firstSeenAux seen l ↔ a ∈ l ∧ a ∉ seen := by
  intro l
  induction l with
  | nil => simp [firstSeenAux]
  | cons x xs ih =>
      intro seen
      rw [firstSeenAux]
      by_cases hx : x ∈ seen
      · rw [if_pos hx, ih]
        constructor
        · rintro ⟨hm, hs⟩
          exact ⟨List.mem_cons_of_mem _ hm, hs⟩
        · rintro ⟨hm, hs⟩
          rcases List.mem_cons.mp hm with rfl | hm
          · exact absurd hx hs
          · exact ⟨hm, hs⟩
      · rw [if_neg hx, List.mem_cons, ih]
        constructor
        · rintro (rfl | ⟨hm, hs⟩)
          · exact ⟨List.mem_cons_self _ _, hx⟩
          · exact ⟨List.mem_cons_of_mem _ hm,
              fun h => hs (List.mem_cons_of_mem _ h)⟩
        · rintro ⟨hm, hs⟩
          rcases List.mem_cons.mp hm with rfl | hm
          · exact Or.inl rfl
          · by_cases hax : a = x
            · exact Or.inl hax
            · refine Or.inr ⟨hm, fun hmem => ?_⟩
              rcases List.mem_cons.mp hmem with h | h
              · exact hax h
              · exact hs h

theorem nodup_firstSeenAux {α : Type} [DecidableEq α] :
    ∀ (l seen : List α), (firstSeenAux seen l).Nodup := by
  intro l
  induction l with
  | nil => intro seen; simp [firstSeenAux]
  | cons x xs ih =>
      intro seen
      rw [firstSeenAux]
      by_cases hx : x ∈ seen
      · rw [if_pos hx]; exact ih seen
      · rw [if_neg hx]
        refine List.nodup_cons.mpr ⟨?_, ih _⟩
        intro hmem
        exact ((mem_firstSeenAux x xs (x :: seen)).mp hmem).2 (List.mem_cons_self _ _)

theorem mem_firstSeen {α : Type} [DecidableEq α] (a : α) (l : List α) :
    a ∈ firstSeen l ↔ a ∈ l := by
  rw [firstSeen, mem_firstSeenAux]
  simp

theorem nodup_firstSeen {α : Type} [DecidableEq α] (l : List α) :
    (firstSeen l).Nodup :=
  nodup_firstSeenAux l []

/-- Post-conditions of the shared filter / stable-sort / truncate tail of
both analyze orchestrations, for an arbitrary scored list. -/
theorem analyze_tail_post (cfg : RecommendationConfig) (scored : List MatchResult) :
    ((sortDesc MatchResult.matchScore
        (scored.filter (fun r => cfg.minMatchScore ≤ r.matchScore))).take
          cfg.maxRecommendations).Sorted
        (fun a b => b.matchScore ≤ a.matchScore) ∧
    ((sortDesc MatchResult.matchScore
        (scored.filter (fun r => cfg.minMatchScore ≤ r.matchScore))).take
          cfg.maxRecommendations).length ≤ cfg.maxRecommendations ∧
    (∀ r ∈ (sortDesc MatchResult.matchScore
        (scored.filter (fun r => cfg.minMatchScore ≤ r.matchScore))).take
          cfg.maxRecommendations, cfg.minMatchScore ≤ r.matchScore) ∧
    (∀ s : ℤ,
      ((sortDesc MatchResult.matchScore
          (scored.filter (fun r => cfg.minMatchScore ≤ r.matchScore))).take
            cfg.maxRecommendations).filter (fun r => r.matchScore = s) <+:
        (scored.filter (fun r => cfg.minMatchScore ≤ r.matchScore)).filter
          (fun r => r.matchScore = s)) := by
  set kept := scored.filter (fun r => cfg.minMatchScore ≤ r.matchScore) with hkept
  refine ⟨?_, ?_, ?_, ?_⟩
  · exact (sortDesc_sorted MatchResult.matchScore kept).sublist
      (List.take_sublist _ _)
  · exact List.length_take_le _ _
  · intro r hr
    have h1 : r ∈ sortDesc MatchResult.matchScore kept :=
      List.take_subset _ _ hr
    have h2 : r ∈ kept := (sortDesc_perm MatchResult.matchScore kept).subset h1
    rw [hkept] at h2
    exact of_decide_eq_true (List.mem_filter.mp h2).2
  · intro s
    have hpre : ((sortDesc MatchResult.matchScore kept).take
          cfg.maxRecommendations).filter (fun r => r.matchScore = s) <+:
        (sortDesc MatchResult.matchScore kept).filter (fun r => r.matchScore = s) :=
      (List.take_prefix _ _).filter _
    rwa [filter_sortDesc MatchResult.matchScore s kept] at hpre

end HRFlask

/-! ## Claims -/

open HRFlask

/-- C5: for every policies list, `analyze([], policies)` returns
`{recommendations: [], extractedKeywords: [], overallSentiment: neutral}`
(no skip reason), and symmetrically `analyze(comments, [])` returns the same
for every comments list, in both recommender variants; the embedding is
total, so no error is raised. -/
theorem empty_input_short_circuit
    (tokenize : String → List String) (m : String → String → Option ℚ)
    (sim : String → String → ℚ) (cfg : RecommendationConfig)
    (pos neg : List String) (tbl : String → List String)
    (comments : List String) (policies : List Policy) :
    tfidfAnalyze tokenize m cfg pos neg tbl [] policies =
        ⟨[], [], "neutral", none⟩ ∧
    tfidfAnalyze tokenize m cfg pos neg tbl comments [] =
        ⟨[], [], "neutral", none⟩ ∧
    kobertAnalyze tokenize sim cfg pos neg tbl [] policies =
        ⟨[], [], "neutral", none⟩ ∧
    kobertAnalyze tokenize sim cfg pos neg tbl comments [] =
        ⟨[], [], "neutral", none⟩ := by
  refine ⟨?_, ?_, ?_, ?_⟩ <;> simp [tfidfAnalyze, kobertAnalyze]

/-- C1: veto invariant — in both variants, whenever the analysis result has
`overallSentiment = "negative"`, its recommendation list is empty and the
fixed skip-reason string is present. -/
theorem veto_invariant
    (tokenize : String → List String) (m : String → String → Option ℚ)
    (sim : String → String → ℚ) (cfg : RecommendationConfig)
    (pos neg : List String) (tbl : String → List String)
    (comments : List String) (policies : List Policy) :
    ((tfidfAnalyze tokenize m cfg pos neg tbl comments policies).overallSentiment =
        "negative" →
      (tfidfAnalyze tokenize m cfg pos neg tbl comments policies).recommendations =
          [] ∧
      (tfidfAnalyze tokenize m cfg pos neg tbl comments policies).skipReason =
          some skipMessage) ∧
    ((kobertAnalyze tokenize sim cfg pos neg tbl comments policies).overallSentiment =
        "negative" →
      (kobertAnalyze tokenize sim cfg pos neg tbl comments policies).recommendations =
          [] ∧
      (kobertAnalyze tokenize sim cfg pos neg tbl comments policies).skipReason =
          some skipMessage) := by
  constructor
  · intro h
    simp only [tfidfAnalyze] at h ⊢
    split_ifs at h ⊢ with h1 h2
    · exact absurd h (by decide)
    · exact ⟨rfl, rfl⟩
    · exact absurd h h2
  · intro h
    simp only [kobertAnalyze] at h ⊢
    split_ifs at h ⊢ with h1 h2
    · exact absurd h (by decide)
    · exact ⟨rfl, rfl⟩
    · exact absurd h h2

/-- Closed witness for C1: a concrete negative-leaning run of both variants
hits the veto branch, discharging the hypothesis of `veto_invariant`. -/
theorem veto_invariant_witness :
    (tfidfAnalyze (fun _ => []) (fun _ _ => some 0) ⟨0, 5⟩ [] ["나쁨"]
        (fun _ => []) ["나쁨"] [⟨some 1, some "상", none⟩]).recommendations = [] ∧
    (kobertAnalyze (fun _ => []) (fun _ _ => 0) ⟨0, 5⟩ [] ["나쁨"]
        (fun _ => []) ["나쁨"] [⟨some 1, some "상", none⟩]).recommendations = [] := by
  constructor
  · exact (veto_invariant (fun _ => []) (fun _ _ => some 0) (fun _ _ => 0) ⟨0, 5⟩
      [] ["나쁨"] (fun _ => []) ["나쁨"] [⟨some 1, some "상", none⟩]).1 (by decide) |>.1
  · exact (veto_invariant (fun _ => []) (fun _ _ => some 0) (fun _ _ => 0) ⟨0, 5⟩
      [] ["나쁨"] (fun _ => []) ["나쁨"] [⟨some 1, some "상", none⟩]).2 (by decide) |>.1

/-- C6: sentiment decision rule — on nonempty text, the result is
"positive" iff strictly more configured positive than negative words occur
as raw substrings of the lowercased text, "negative" iff strictly more
negative words occur, and "neutral" iff the counts tie; empty text yields
"neutral". -/
theorem sentiment_decision_rule (text : String) (pos neg : List String) :
    (text ≠ "" →
      ((analyze_sentiment text pos neg = "positive" ↔
          (neg.filter (fun w => w.toList <:+: (pyLower text).toList)).length <
            (pos.filter (fun w => w.toList <:+: (pyLower text).toList)).length) ∧
       (analyze_sentiment text pos neg = "negative" ↔
          (pos.filter (fun w => w.toList <:+: (pyLower text).toList)).length <
            (neg.filter (fun w => w.toList <:+: (pyLower text).toList)).length) ∧
       (analyze_sentiment text pos neg = "neutral" ↔
          (pos.filter (fun w => w.toList <:+: (pyLower text).toList)).length =
            (neg.filter (fun w => w.toList <:+: (pyLower text).toList)).length))) ∧
    (text = "" → analyze_sentiment text pos neg = "neutral") := by
  constructor
  · intro htext
    have hpn : ("positive" : String) ≠ "negative" := by decide
    have hpu : ("positive" : String) ≠ "neutral" := by decide
    have hnu : ("negative" : String) ≠ "neutral" := by decide
    simp only [analyze_sentiment, occursIn_eq_decide, if_neg htext]
    set pc := (pos.filter (fun w => decide (w.toList <:+: (pyLower text).toList))).length
      with hpc
    set nc := (neg.filter (fun w => decide (w.toList <:+: (pyLower text).toList))).length
      with hnc
    rcases Nat.lt_trichotomy nc pc with h | h | h
    · rw [if_pos h]
      exact ⟨iff_of_true rfl h, iff_of_false hpn (by omega),
        iff_of_false hpu (by omega)⟩
    · rw [if_neg (by omega), if_neg (by omega)]
      exact ⟨iff_of_false hpu.symm (by omega), iff_of_false hnu.symm (by omega),
        iff_of_true rfl (by omega)⟩
    · rw [if_neg (by omega), if_pos h]
      exact ⟨iff_of_false hpn.symm (by omega), iff_of_true rfl h,
        iff_of_false hnu (by omega)⟩
  · intro htext
    simp [analyze_sentiment, htext]

/-- Closed witness for C6: a text with one positive hit and no negative hit
is classified positive, and the empty text neutral, via
`sentiment_decision_rule`. -/
theorem sentiment_decision_rule_witness :
    analyze_sentiment "정말 좋다" ["좋다"] ["나쁘다"] = "positive" ∧
    analyze_sentiment "" ["좋다"] ["나쁘다"] = "neutral" :=
  ⟨((sentiment_decision_rule "정말 좋다" ["좋다"] ["나쁘다"]).1 (by decide)).1.mpr
      (by decide),
   (sentiment_decision_rule "" ["좋다"] ["나쁘다"]).2 rfl⟩

/-- C10: a dictionary keyword is kept for a policy iff it occurs verbatim
(case-sensitively, no normalization) as a substring of the raw space-joined
comment text, and the kept keywords appear in dictionary order, in both
variants; the final two conjuncts exhibit case-sensitivity on a concrete
input (the capitalized dictionary entry does not match lowercase text,
although the sentiment gate's lowercasing would have made them equal). -/
theorem keyword_match_raw_substring (m : String → String → Option ℚ)
    (sim : String → String → ℚ) (tbl : String → List String)
    (comments : List String) (p : Policy) (ex : List String) (k : String) :
    (k ∈ (tfidfMatchPolicy m tbl (join_texts comments) p ex).keywords ↔
        k ∈ tbl (p.policyName.getD "") ∧
          k.toList <:+: (join_texts comments).toList) ∧
    ((tfidfMatchPolicy m tbl (join_texts comments) p ex).keywords =
        (tbl (p.policyName.getD "")).filter
          (fun w => w.toList <:+: (join_texts comments).toList)) ∧
    (k ∈ (kobertMatchPolicy sim tbl (join_texts comments) p ex).keywords ↔
        k ∈ tbl (p.policyName.getD "") ∧
          k.toList <:+: (join_texts comments).toList) ∧
    ((kobertMatchPolicy sim tbl (join_texts comments) p ex).keywords =
        (tbl (p.policyName.getD "")).filter
          (fun w => w.toList <:+: (join_texts comments).toList)) ∧
    (tfidfMatchPolicy m (fun _ => ["Good"]) (join_texts ["my good job"]) p ex).keywords
        = [] ∧
    (kobertMatchPolicy sim (fun _ => ["Good"]) (join_texts ["my good job"]) p ex).keywords
        = [] := by
  have hfil : ∀ ws : List String, ∀ t : String,
      ws.filter (fun w => occursIn w t) =
        ws.filter (fun w => decide (w.toList <:+: t.toList)) := by
    intro ws t
    exact List.filter_congr fun w _ => occursIn_eq_decide w t
  refine ⟨?_, ?_, ?_, ?_, ?_, ?_⟩
  · simp only [tfidfMatchPolicy, hfil, List.mem_filter, decide_eq_true_eq]
  · simp only [tfidfMatchPolicy, hfil]
  · simp only [kobertMatchPolicy, hfil, List.mem_filter, decide_eq_true_eq]
  · simp only [kobertMatchPolicy, hfil]
  · simp only [tfidfMatchPolicy]
    decide
  · simp only [kobertMatchPolicy]
    decide

/-- C3 counterexample: with the backend that scores a pair of texts by the
length of its second argument, the lexical variant's reported
similarityScore (1, the length of the description "D") differs from the
score the claim predicts (4, the length of "N. D" — the name-dot-description
text): the lexical `_match_policy` passes the description alone to the
similarity computation. -/
theorem similarity_text_counterexample :
    (tfidfMatchPolicy (fun _ t2 => some ((t2.length : ℚ))) (fun _ => [])
        "코멘트" ⟨some 1, some "N", some "D"⟩ []).similarityScore = 1 ∧
    round4 (tfidfCalculateSimilarity (fun _ t2 => some ((t2.length : ℚ)))
        "코멘트" (kobertPolicyText ⟨some 1, some "N", some "D"⟩)) = 4 := by
  have hC : ¬ ("코멘트" = "" ∨ "D" = "") := by decide
  have hC2 : ¬ ("코멘트" = "" ∨ "N" ++ ". " ++ "D" = "") := by decide
  constructor
  · show round4 (tfidfCalculateSimilarity (fun _ t2 => some ((t2.length : ℚ)))
      "코멘트" "D") = 1
    rw [tfidfCalculateSimilarity, if_neg hC]
    show round4 (("D".length : ℚ)) = 1
    rw [show (("D".length : ℚ)) = 1 by norm_num [show "D".length = 1 from rfl]]
    norm_num [round4, roundHalfEven]
  · show round4 (tfidfCalculateSimilarity (fun _ t2 => some ((t2.length : ℚ)))
      "코멘트" ("N" ++ ". " ++ "D")) = 4
    rw [tfidfCalculateSimilarity, if_neg hC2]
    show round4 ((("N" ++ ". " ++ "D").length : ℚ)) = 4
    rw [show ((("N" ++ ". " ++ "D").length : ℚ)) = 4 by
      norm_num [show ("N" ++ ". " ++ "D").length = 4 from rfl]]
    norm_num [round4, roundHalfEven]

/-- C3 amended: the embedding variant computes similarity between the
combined text and the name-dot-description string (description defaulting to
the name when absent), but the lexical variant computes it between the
combined text and the description alone (same default); the reported field
is the 4-decimal rounding of that score. -/
theorem similarity_text_amended (m : String → String → Option ℚ)
    (sim : String → String → ℚ) (tbl : String → List String)
    (text : String) (p : Policy) (ex : List String) :
    (tfidfMatchPolicy m tbl text p ex).similarityScore =
      round4 (tfidfCalculateSimilarity m text
        (p.description.getD (p.policyName.getD ""))) ∧
    (kobertMatchPolicy sim tbl text p ex).similarityScore =
      round4 (sim text (kobertPolicyText p)) ∧
    kobertPolicyText p =
      (p.policyName.getD "") ++ ". " ++ (p.description.getD (p.policyName.getD "")) :=
  ⟨rfl, rfl, rfl⟩

/-- C8 counterexample: an internal failure of the embedding backend (modelled
as `none`) is NOT caught by the embedding variant — it propagates out of
`calculate_similarity` and out of `_match_policy` instead of surfacing as
0.0; no try/except protects these paths in the source. -/
theorem similarity_failure_counterexample :
    kobertCalculateSimilarity (fun _ _ => none) "텍스트" "정책" = none ∧
    kobertMatchPolicyE (fun _ _ => none) (fun _ => []) "텍스트"
        ⟨some 1, some "상", none⟩ [] = none := by
  constructor
  · show (if _ then _ else _) = _
    rw [if_neg]
    simp
  · rfl

/-- C8 amended: with empty input on either side, both variants return 0.0
without invoking the backend (the result does not depend on the backend);
the lexical variant converts any backend failure to 0.0, while the
embedding variant propagates the failure out of both calculate_similarity
and _match_policy. -/
theorem similarity_degradation_amended (m mAlt : String → String → Option ℚ)
    (t1 t2 : String) (tbl : String → List String) (p : Policy)
    (ex : List String) :
    ((t1 = "" ∨ t2 = "") →
      tfidfCalculateSimilarity m t1 t2 = 0 ∧
      kobertCalculateSimilarity m t1 t2 = some 0 ∧
      tfidfCalculateSimilarity m t1 t2 = tfidfCalculateSimilarity mAlt t1 t2 ∧
      kobertCalculateSimilarity m t1 t2 = kobertCalculateSimilarity mAlt t1 t2) ∧
    (m t1 t2 = none → tfidfCalculateSimilarity m t1 t2 = 0) ∧
    ((t1 ≠ "" ∧ t2 ≠ "") →
      kobertCalculateSimilarity m t1 t2 = m t1 t2) ∧
    (m t1 (kobertPolicyText p) = none →
      kobertMatchPolicyE m tbl t1 p ex = none) := by
  refine ⟨?_, ?_, ?_, ?_⟩
  · intro hemp
    simp [tfidfCalculateSimilarity, kobertCalculateSimilarity, hemp]
  · intro hm
    by_cases hemp : t1 = "" ∨ t2 = ""
    · simp [tfidfCalculateSimilarity, hemp]
    · simp [tfidfCalculateSimilarity, hemp, hm]
  · intro hne
    have : ¬ (t1 = "" ∨ t2 = "") := by
      rintro (h | h)
      exacts [hne.1 h, hne.2 h]
    simp [kobertCalculateSimilarity, this]
  · intro hm
    simp [kobertMatchPolicyE, hm]

/-- Closed witness for C8-amended: concrete instances of every hypothesis of
`similarity_degradation_amended` — an empty first argument, an
always-failing backend, and nonempty inputs. -/
theorem similarity_degradation_amended_witness :
    tfidfCalculateSimilarity (fun _ _ => none) "" "정책" = 0 ∧
    tfidfCalculateSimilarity (fun _ _ => none) "텍스트" "정책" = 0 ∧
    kobertCalculateSimilarity (fun _ _ => none) "텍스트" "정책" =
      (fun (_ : String) (_ : String) => (none : Option ℚ)) "텍스트" "정책" ∧
    kobertMatchPolicyE (fun _ _ => none) (fun _ => []) "텍스트"
        ⟨some 1, some "상", none⟩ [] = none := by
  refine ⟨?_, ?_, ?_, ?_⟩
  · exact ((similarity_degradation_amended (fun _ _ => none) (fun _ _ => none)
      "" "정책" (fun _ => []) ⟨some 1, some "상", none⟩ []).1 (Or.inl rfl)).1
  · exact (similarity_degradation_amended (fun _ _ => none) (fun _ _ => none)
      "텍스트" "정책" (fun _ => []) ⟨some 1, some "상", none⟩ []).2.1 rfl
  · exact (similarity_degradation_amended (fun _ _ => none) (fun _ _ => none)
      "텍스트" "정책" (fun _ => []) ⟨some 1, some "상", none⟩ []).2.2.1
      ⟨by decide, by decide⟩
  · exact (similarity_degradation_amended (fun _ _ => none) (fun _ _ => none)
      "텍스트" "정책" (fun _ => []) ⟨some 1, some "상", none⟩ []).2.2.2 rfl

/-- C9 counterexample: at raw similarity 0.2 (inside the claimed ≥0.1 weak
band) with no matched keywords, the lexical variant emits only the default
"기본 조건 충족." clause — exactly what it emits at similarity 0 — while the
embedding variant emits the weak-relevance clause: the lexical
`_generate_reason` has no ≥0.1 band, contradicting the claim that the weak
band exists in both variants. -/
theorem reason_weak_band_counterexample :
    tfidfGenerateReason "팀워크상" [] (2/10) = "기본 조건 충족." ∧
    tfidfGenerateReason "팀워크상" [] (2/10) = tfidfGenerateReason "팀워크상" [] 0 ∧
    kobertGenerateReason "팀워크상" [] (2/10) = "'팀워크상' 정책과 약한 연관성." := by
  refine ⟨?_, ?_, ?_⟩
  · norm_num [tfidfGenerateReason, reasonClauses]
    decide
  · norm_num [tfidfGenerateReason, reasonClauses]
  · norm_num [kobertGenerateReason, reasonClauses]
    decide

/-- C9 amended: both variants select the high clause at raw similarity ≥0.5
and the medium clause at ≥0.3, but only the embedding variant has a weak
clause at ≥0.1 (the lexical variant falls through to no band clause below
0.3); the keyword clause names at most the first 3 matched keywords, the
default clause appears only when no other clause applies, clauses are
period-joined, and each matchPolicy hands `_generate_reason` the raw
(pre-normalization) similarity score. -/
theorem reason_bands_amended (name : String) (kws : List String) (s : ℚ)
    (m : String → String → Option ℚ) (sim : String → String → ℚ)
    (tbl : String → List String) (text : String) (p : Policy)
    (ex : List String) :
    (0.5 ≤ s →
      tfidfGenerateReason name kws s =
        reasonClauses ["'" ++ name ++ "' 정책과 높은 연관성 확인"] kws ∧
      kobertGenerateReason name kws s =
        reasonClauses ["'" ++ name ++ "' 정책과 높은 의미적 연관성 확인 (BERT 분석)"] kws) ∧
    (0.3 ≤ s → s < 0.5 →
      tfidfGenerateReason name kws s =
        reasonClauses ["'" ++ name ++ "' 정책과 연관성 확인"] kws ∧
      kobertGenerateReason name kws s =
        reasonClauses ["'" ++ name ++ "' 정책과 연관성 확인"] kws) ∧
    (0.1 ≤ s → s < 0.3 →
      tfidfGenerateReason name kws s = reasonClauses [] kws ∧
      kobertGenerateReason name kws s =
        reasonClauses ["'" ++ name ++ "' 정책과 약한 연관성"] kws) ∧
    (s < 0.1 →
      tfidfGenerateReason name kws s = reasonClauses [] kws ∧
      kobertGenerateReason name kws s = reasonClauses [] kws) ∧
    reasonClauses [] [] = "기본 조건 충족." ∧
    (kws ≠ [] →
      reasonClauses [] kws =
        ("핵심 키워드 '" ++ String.intercalate "', '" (kws.take 3) ++ "' 발견") ++ "." ∧
      reasonClauses [] kws = reasonClauses [] (kws.take 3)) ∧
    ((tfidfMatchPolicy m tbl text p ex).reason =
      tfidfGenerateReason (p.policyName.getD "")
        ((tbl (p.policyName.getD "")).filter (fun k => occursIn k text))
        (tfidfCalculateSimilarity m text
          (p.description.getD (p.policyName.getD "")))) ∧
    ((kobertMatchPolicy sim tbl text p ex).reason =
      kobertGenerateReason (p.policyName.getD "")
        ((tbl (p.policyName.getD "")).filter (fun k => occursIn k text))
        (sim text (kobertPolicyText p))) := by
  refine ⟨?_, ?_, ?_, ?_, ?_, ?_, rfl, rfl⟩
  · intro h05
    rw [tfidfGenerateReason, kobertGenerateReason, if_pos h05, if_pos h05]
    exact ⟨rfl, rfl⟩
  · intro h03 h05
    rw [tfidfGenerateReason, kobertGenerateReason,
      if_neg (not_le.mpr h05), if_neg (not_le.mpr h05), if_pos h03, if_pos h03]
    exact ⟨rfl, rfl⟩
  · intro h01 h03
    have h05 : ¬ ((0.5 : ℚ) ≤ s) := by rw [not_le]; linarith
    rw [tfidfGenerateReason, kobertGenerateReason, if_neg h05, if_neg h05,
      if_neg (not_le.mpr h03), if_neg (not_le.mpr h03), if_pos h01]
    exact ⟨rfl, rfl⟩
  · intro h01
    have h05 : ¬ ((0.5 : ℚ) ≤ s) := by rw [not_le]; linarith
    have h03 : ¬ ((0.3 : ℚ) ≤ s) := by rw [not_le]; linarith
    rw [tfidfGenerateReason, kobertGenerateReason, if_neg h05, if_neg h05,
      if_neg h03, if_neg h03, if_neg (not_le.mpr h01)]
    exact ⟨rfl, rfl⟩
  · rfl
  · intro hk
    have htk : kws.take 3 ≠ [] := by
      cases kws with
      | nil => exact absurd rfl hk
      | cons a t => simp [List.take]
    constructor
    · rw [reasonClauses, if_neg hk]
      rfl
    · rw [reasonClauses, reasonClauses, if_neg hk, if_neg htk, List.take_take]
      simp

/-- Closed witness for C9-amended: the band hypotheses of
`reason_bands_amended` discharged at similarity 0.2 with no keywords. -/
theorem reason_bands_amended_witness :
    tfidfGenerateReason "팀워크상" [] (2/10) = reasonClauses [] [] ∧
    kobertGenerateReason "팀워크상" [] (2/10) =
      reasonClauses ["'" ++ "팀워크상" ++ "' 정책과 약한 연관성"] [] :=
  (reason_bands_amended "팀워크상" [] (2/10) (fun _ _ => none) (fun _ _ => 0)
    (fun _ => []) "" ⟨none, none, none⟩ []).2.2.1 (by norm_num) (by norm_num)

/-! ### Score-fusion helper lemmas for C2 -/

theorem keywordScore_bounds (kws : List String) (pred : String → Bool) :
    0 ≤ (if kws = [] then (0:ℚ)
        else ((kws.filter pred).length : ℚ) / (kws.length : ℚ)) ∧
    (if kws = [] then (0:ℚ)
        else ((kws.filter pred).length : ℚ) / (kws.length : ℚ)) ≤ 1 := by
  split_ifs with h
  · norm_num
  · have hpos : (0:ℚ) < (kws.length : ℚ) := by
      exact_mod_cast List.length_pos.mpr h
    constructor
    · positivity
    · rw [div_le_one hpos]
      exact_mod_cast List.length_filter_le pred kws

theorem clampFloor_of_bounds (x : ℚ) (h0 : 0 ≤ x) (h100 : x ≤ 100) :
    min 100 (pyTrunc x) = ⌊max 0 (min 100 x)⌋ ∧
    0 ≤ min 100 (pyTrunc x) ∧ min 100 (pyTrunc x) ≤ 100 := by
  have ht : pyTrunc x = ⌊x⌋ := by rw [pyTrunc, if_pos h0]
  have hf : ⌊x⌋ ≤ 100 := by
    have h := Int.floor_le_floor h100
    simpa using h
  rw [ht, min_eq_right hf, min_eq_right h100, max_eq_right h0]
  exact ⟨rfl, Int.floor_nonneg.mpr h0, hf⟩

/-- C2: in both variants the match score is the floor of the fused score
clamped to [0, 100] — the lexical fusion being (similarity·0.5 +
keywordScore·0.5)·100 and the embedding fusion ((similarity+1)/2·0.7 +
keywordScore·0.3)·100 with the raw [-1,1] similarity normalized first — and
is therefore an integer between 0 and 100, whenever the backend similarity
lies in its nominal range ([0,1] for the lexical cosine, [-1,1] for the
embedding cosine). -/
theorem match_score_fusion (m : String → String → Option ℚ)
    (sim : String → String → ℚ) (tbl : String → List String)
    (text : String) (p : Policy) (ex : List String) :
    (0 ≤ tfidfCalculateSimilarity m text (p.description.getD (p.policyName.getD "")) →
      tfidfCalculateSimilarity m text (p.description.getD (p.policyName.getD "")) ≤ 1 →
      (tfidfMatchPolicy m tbl text p ex).matchScore =
          ⌊max 0 (min 100
            ((tfidfCalculateSimilarity m text (p.description.getD (p.policyName.getD "")) * 0.5 +
              (if tbl (p.policyName.getD "") = [] then 0 else
                (((tbl (p.policyName.getD "")).filter (fun k => occursIn k text)).length : ℚ) /
                  ((tbl (p.policyName.getD "")).length : ℚ)) * 0.5) * 100))⌋ ∧
        0 ≤ (tfidfMatchPolicy m tbl text p ex).matchScore ∧
        (tfidfMatchPolicy m tbl text p ex).matchScore ≤ 100) ∧
    (-1 ≤ sim text (kobertPolicyText p) →
      sim text (kobertPolicyText p) ≤ 1 →
      (kobertMatchPolicy sim tbl text p ex).matchScore =
          ⌊max 0 (min 100
            (((sim text (kobertPolicyText p) + 1) / 2 * 0.7 +
              (if tbl (p.policyName.getD "") = [] then 0 else
                (((tbl (p.policyName.getD "")).filter (fun k => occursIn k text)).length : ℚ) /
                  ((tbl (p.policyName.getD "")).length : ℚ)) * 0.3) * 100))⌋ ∧
        0 ≤ (kobertMatchPolicy sim tbl text p ex).matchScore ∧
        (kobertMatchPolicy sim tbl text p ex).matchScore ≤ 100) := by
  have hk := keywordScore_bounds (tbl (p.policyName.getD ""))
    (fun k => occursIn k text)
  constructor
  · intro h0 h1
    have hx0 : 0 ≤ (tfidfCalculateSimilarity m text
        (p.description.getD (p.policyName.getD "")) * 0.5 +
        (if tbl (p.policyName.getD "") = [] then 0 else
          (((tbl (p.policyName.getD "")).filter (fun k => occursIn k text)).length : ℚ) /
            ((tbl (p.policyName.getD "")).length : ℚ)) * 0.5) * 100 := by
      nlinarith [hk.1, hk.2]
    have hx100 : (tfidfCalculateSimilarity m text
        (p.description.getD (p.policyName.getD "")) * 0.5 +
        (if tbl (p.policyName.getD "") = [] then 0 else
          (((tbl (p.policyName.getD "")).filter (fun k => occursIn k text)).length : ℚ) /
            ((tbl (p.policyName.getD "")).length : ℚ)) * 0.5) * 100 ≤ 100 := by
      nlinarith [hk.1, hk.2]
    exact clampFloor_of_bounds _ hx0 hx100
  · intro h0 h1
    have hx0 : 0 ≤ ((sim text (kobertPolicyText p) + 1) / 2 * 0.7 +
        (if tbl (p.policyName.getD "") = [] then 0 else
          (((tbl (p.policyName.getD "")).filter (fun k => occursIn k text)).length : ℚ) /
            ((tbl (p.policyName.getD "")).length : ℚ)) * 0.3) * 100 := by
      nlinarith [hk.1, hk.2]
    have hx100 : ((sim text (kobertPolicyText p) + 1) / 2 * 0.7 +
        (if tbl (p.policyName.getD "") = [] then 0 else
          (((tbl (p.policyName.getD "")).filter (fun k => occursIn k text)).length : ℚ) /
            ((tbl (p.policyName.getD "")).length : ℚ)) * 0.3) * 100 ≤ 100 := by
      nlinarith [hk.1, hk.2]
    exact clampFloor_of_bounds _ hx0 hx100

/-- Closed witness for C2: both hypotheses of `match_score_fusion`
discharged with a backend returning similarity 1/2 on a concrete nonempty
text/policy pair. -/
theorem match_score_fusion_witness :
    0 ≤ (tfidfMatchPolicy (fun _ _ => some (1/2)) (fun _ => []) "코멘트"
        ⟨some 1, some "상", some "설명"⟩ []).matchScore ∧
    (tfidfMatchPolicy (fun _ _ => some (1/2)) (fun _ => []) "코멘트"
        ⟨some 1, some "상", some "설명"⟩ []).matchScore ≤ 100 ∧
    0 ≤ (kobertMatchPolicy (fun _ _ => 1/2) (fun _ => []) "코멘트"
        ⟨some 1, some "상", some "설명"⟩ []).matchScore ∧
    (kobertMatchPolicy (fun _ _ => 1/2) (fun _ => []) "코멘트"
        ⟨some 1, some "상", some "설명"⟩ []).matchScore ≤ 100 := by
  have hs : tfidfCalculateSimilarity (fun _ _ => some (1/2)) "코멘트"
      ((⟨some 1, some "상", some "설명"⟩ : Policy).description.getD
        ((⟨some 1, some "상", some "설명"⟩ : Policy).policyName.getD "")) = 1/2 := by
    show tfidfCalculateSimilarity (fun _ _ => some (1/2)) "코멘트" "설명" = 1/2
    rw [tfidfCalculateSimilarity, if_neg (by decide)]
  have h1 := (match_score_fusion (fun _ _ => some (1/2)) (fun _ _ => 1/2)
    (fun _ => []) "코멘트" ⟨some 1, some "상", some "설명"⟩ []).1
    (by rw [hs]; norm_num) (by rw [hs]; norm_num)
  have h2 := (match_score_fusion (fun _ _ => some (1/2)) (fun _ _ => 1/2)
    (fun _ => []) "코멘트" ⟨some 1, some "상", some "설명"⟩ []).2
    (by norm_num) (by norm_num)
  exact ⟨h1.2.1, h1.2.2, h2.2.1, h2.2.2⟩

/-- C4: ranking order — in both variants the recommendation list is sorted
by matchScore descending, has length at most the configured
maxRecommendations, every element reaches the configured minMatchScore, and
ties retain the relative input-policy order: for every score value, the
recommendations carrying that score form a prefix of the kept (filtered)
per-policy results carrying that score, which are in input-policy order. -/
theorem ranking_order (tokenize : String → List String)
    (m : String → String → Option ℚ) (sim : String → String → ℚ)
    (cfg : RecommendationConfig) (pos neg : List String)
    (tbl : String → List String) (comments : List String)
    (policies : List Policy) :
    ((tfidfAnalyze tokenize m cfg pos neg tbl comments policies).recommendations.Sorted
        (fun a b => b.matchScore ≤ a.matchScore) ∧
      (tfidfAnalyze tokenize m cfg pos neg tbl comments policies).recommendations.length ≤
        cfg.maxRecommendations ∧
      (∀ r ∈ (tfidfAnalyze tokenize m cfg pos neg tbl comments policies).recommendations,
        cfg.minMatchScore ≤ r.matchScore) ∧
      (∀ s : ℤ,
        (tfidfAnalyze tokenize m cfg pos neg tbl comments policies).recommendations.filter
            (fun r => r.matchScore = s) <+:
          ((policies.map (fun p => tfidfMatchPolicy m tbl (join_texts comments) p
              (extract_keywords tokenize (join_texts comments)))).filter
            (fun r => cfg.minMatchScore ≤ r.matchScore)).filter
              (fun r => r.matchScore = s))) ∧
    ((kobertAnalyze tokenize sim cfg pos neg tbl comments policies).recommendations.Sorted
        (fun a b => b.matchScore ≤ a.matchScore) ∧
      (kobertAnalyze tokenize sim cfg pos neg tbl comments policies).recommendations.length ≤
        cfg.maxRecommendations ∧
      (∀ r ∈ (kobertAnalyze tokenize sim cfg pos neg tbl comments policies).recommendations,
        cfg.minMatchScore ≤ r.matchScore) ∧
      (∀ s : ℤ,
        (kobertAnalyze tokenize sim cfg pos neg tbl comments policies).recommendations.filter
            (fun r => r.matchScore = s) <+:
          ((policies.map (fun p => kobertMatchPolicy sim tbl (join_texts comments) p
              (extract_keywords tokenize (join_texts comments)))).filter
            (fun r => cfg.minMatchScore ≤ r.matchScore)).filter
              (fun r => r.matchScore = s))) := by
  constructor
  · simp only [tfidfAnalyze]
    split_ifs with h1 h2
    · exact ⟨List.sorted_nil, by simp, by simp, fun s => by simp⟩
    · exact ⟨List.sorted_nil, by simp, by simp, fun s => by simp⟩
    · exact analyze_tail_post cfg _
  · simp only [kobertAnalyze]
    split_ifs with h1 h2
    · exact ⟨List.sorted_nil, by simp, by simp, fun s => by simp⟩
    · exact ⟨List.sorted_nil, by simp, by simp, fun s => by simp⟩
    · exact analyze_tail_post cfg _

/-- Closed witness for C4: the membership hypothesis of `ranking_order`
discharged on a concrete run of each variant whose recommendation list is a
computed singleton. -/
theorem ranking_order_witness :
    (0 : ℤ) ≤ (⟨some 1, "상", 0, 0, "기본 조건 충족.", []⟩ : MatchResult).matchScore ∧
    (0 : ℤ) ≤ (⟨some 1, "상", 35, 0, "기본 조건 충족.", []⟩ : MatchResult).matchScore := by
  have hsim : tfidfCalculateSimilarity (fun _ _ => some 0)
      (join_texts ["좋은 평가"]) "" = 0 := by
    rw [tfidfCalculateSimilarity, if_pos (Or.inr rfl)]
  have hR : tfidfMatchPolicy (fun _ _ => some 0) (fun _ => [])
      (join_texts ["좋은 평가"]) ⟨some 1, some "상", some ""⟩
      (extract_keywords (fun _ => []) (join_texts ["좋은 평가"])) =
      ⟨some 1, "상", 0, 0, "기본 조건 충족.", []⟩ := by
    simp only [tfidfMatchPolicy, Option.getD_some]
    rw [MatchResult.mk.injEq]
    refine ⟨rfl, rfl, ?_, ?_, ?_, rfl⟩
    · rw [hsim]
      norm_num [pyTrunc]
    · rw [hsim]
      norm_num [round4, roundHalfEven]
    · rw [hsim]
      norm_num [tfidfGenerateReason, reasonClauses]
      decide
  have hR2 : kobertMatchPolicy (fun _ _ => 0) (fun _ => [])
      (join_texts ["좋은 평가"]) ⟨some 1, some "상", some ""⟩
      (extract_keywords (fun _ => []) (join_texts ["좋은 평가"])) =
      ⟨some 1, "상", 35, 0, "기본 조건 충족.", []⟩ := by
    simp only [kobertMatchPolicy, Option.getD_some]
    rw [MatchResult.mk.injEq]
    refine ⟨rfl, rfl, ?_, ?_, ?_, rfl⟩
    · norm_num [pyTrunc]
    · norm_num [round4, roundHalfEven]
    · norm_num [kobertGenerateReason, reasonClauses]
      decide
  have hrec : (tfidfAnalyze (fun _ => []) (fun _ _ => some 0) ⟨0, 5⟩ [] []
      (fun _ => []) ["좋은 평가"] [⟨some 1, some "상", some ""⟩]).recommendations =
      [⟨some 1, "상", 0, 0, "기본 조건 충족.", []⟩] := by
    simp only [tfidfAnalyze]
    rw [if_neg (by decide), if_neg (by decide)]
    simp only [List.map, hR]
    norm_num [sortDesc, List.insertionSort, List.orderedInsert]
  have hrec2 : (kobertAnalyze (fun _ => []) (fun _ _ => 0) ⟨0, 5⟩ [] []
      (fun _ => []) ["좋은 평가"] [⟨some 1, some "상", some ""⟩]).recommendations =
      [⟨some 1, "상", 35, 0, "기본 조건 충족.", []⟩] := by
    simp only [kobertAnalyze]
    rw [if_neg (by decide), if_neg (by decide)]
    simp only [List.map, hR2]
    norm_num [sortDesc, List.insertionSort, List.orderedInsert]
  constructor
  · exact (ranking_order (fun _ => []) (fun _ _ => some 0) (fun _ _ => 0) ⟨0, 5⟩
      [] [] (fun _ => []) ["좋은 평가"] [⟨some 1, some "상", some ""⟩]).1.2.2.1
      ⟨some 1, "상", 0, 0, "기본 조건 충족.", []⟩
      (by rw [hrec]; exact List.mem_singleton_self _)
  · exact (ranking_order (fun _ => []) (fun _ _ => some 0) (fun _ _ => 0) ⟨0, 5⟩
      [] [] (fun _ => []) ["좋은 평가"] [⟨some 1, some "상", some ""⟩]).2.2.2.1
      ⟨some 1, "상", 35, 0, "기본 조건 충족.", []⟩
      (by rw [hrec2]; exact List.mem_singleton_self _)

/-- C7: keyword extraction — extract_keywords(text, topN) returns at most
topN distinct strings drawn from the token stream, ordered by descending
occurrence frequency with ties in first-seen order (for every frequency
value, the returned words of that frequency form a prefix of the
first-seen-ordered distinct words of that frequency), and returns [] on
empty text or an empty token stream.  The two recommenders' extract_keywords
methods are line-for-line identical and share this embedding. -/
theorem keyword_extraction_ranking (tokenize : String → List String)
    (text : String) (topN : ℕ) :
    (extract_keywords tokenize text topN).length ≤ topN ∧
    (extract_keywords tokenize text topN).Nodup ∧
    (∀ w ∈ extract_keywords tokenize text topN, w ∈ tokenize text) ∧
    (extract_keywords tokenize text topN).Pairwise
      (fun a b => (tokenize text).count b ≤ (tokenize text).count a) ∧
    (∀ c : ℕ, (extract_keywords tokenize text topN).filter
        (fun w => (tokenize text).count w = c) <+:
      (firstSeen (tokenize text)).filter (fun w => (tokenize text).count w = c)) ∧
    (text = "" → extract_keywords tokenize text topN = []) ∧
    (tokenize text = [] → extract_keywords tokenize text topN = []) := by
  by_cases htext : text = ""
  · simp only [extract_keywords, if_pos htext]
    exact ⟨by simp, by simp, by simp, by simp, fun c => by simp,
      by simp, by simp⟩
  · by_cases htok : tokenize text = []
    · simp only [extract_keywords, if_neg htext, if_pos htok]
      exact ⟨by simp, by simp, by simp, by simp, fun c => by simp,
        by simp, by simp⟩
    · have hkw : extract_keywords tokenize text topN =
          ((sortDesc Prod.snd ((firstSeen (tokenize text)).map
            (fun w => (w, (tokenize text).count w)))).take topN).map Prod.fst := by
        simp only [extract_keywords, most_common, if_neg htext, if_neg htok]
      have hmem_items : ∀ q ∈ (firstSeen (tokenize text)).map
          (fun w => (w, (tokenize text).count w)),
          q.2 = (tokenize text).count q.1 := by
        intro q hq
        rcases List.mem_map.mp hq with ⟨w, _, rfl⟩
        rfl
      have hperm : List.Perm
          (sortDesc Prod.snd ((firstSeen (tokenize text)).map
            (fun w => (w, (tokenize text).count w))))
          ((firstSeen (tokenize text)).map
            (fun w => (w, (tokenize text).count w))) :=
        sortDesc_perm Prod.snd _
      have hmem_mc : ∀ q ∈ (sortDesc Prod.snd ((firstSeen (tokenize text)).map
          (fun w => (w, (tokenize text).count w)))).take topN,
          q.2 = (tokenize text).count q.1 :=
        fun q hq => hmem_items q (hperm.subset (List.take_subset _ _ hq))
      have hmapfst : ((firstSeen (tokenize text)).map
          (fun w => (w, (tokenize text).count w))).map Prod.fst =
          firstSeen (tokenize text) := by
        rw [List.map_map]
        exact List.map_id _
      rw [hkw]
      refine ⟨?_, ?_, ?_, ?_, ?_, fun h => absurd h htext, fun h => absurd h htok⟩
      · rw [List.length_map]
        exact List.length_take_le _ _
      · have h1 : ((sortDesc Prod.snd ((firstSeen (tokenize text)).map
            (fun w => (w, (tokenize text).count w)))).map Prod.fst).Nodup := by
          rw [(hperm.map Prod.fst).nodup_iff, hmapfst]
          exact nodup_firstSeen (tokenize text)
        exact h1.sublist ((List.take_sublist _ _).map _)
      · intro w hw
        rcases List.mem_map.mp hw with ⟨q, hq, rfl⟩
        have h2 : q ∈ (firstSeen (tokenize text)).map
            (fun w => (w, (tokenize text).count w)) :=
          hperm.subset (List.take_subset _ _ hq)
        have h3 : q.1 ∈ ((firstSeen (tokenize text)).map
            (fun w => (w, (tokenize text).count w))).map Prod.fst :=
          List.mem_map_of_mem _ h2
        rw [hmapfst, mem_firstSeen] at h3
        exact h3
      · have hs := sortDesc_sorted Prod.snd ((firstSeen (tokenize text)).map
          (fun w => (w, (tokenize text).count w)))
        have hmcp : ((sortDesc Prod.snd ((firstSeen (tokenize text)).map
            (fun w => (w, (tokenize text).count w)))).take topN).Pairwise
            (fun a b : String × ℕ => b.2 ≤ a.2) :=
          hs.sublist (List.take_sublist _ _)
        have hmcp2 : ((sortDesc Prod.snd ((firstSeen (tokenize text)).map
            (fun w => (w, (tokenize text).count w)))).take topN).Pairwise
            (fun a b : String × ℕ =>
              (tokenize text).count b.1 ≤ (tokenize text).count a.1) :=
          List.Pairwise.imp_of_mem
            (fun ha hb hr => by rw [← hmem_mc _ ha, ← hmem_mc _ hb]; exact hr) hmcp
        exact List.pairwise_map.mpr hmcp2
      · intro c
        have e1 : (((sortDesc Prod.snd ((firstSeen (tokenize text)).map
            (fun w => (w, (tokenize text).count w)))).take topN).map
              Prod.fst).filter (fun w => (tokenize text).count w = c) =
            (((sortDesc Prod.snd ((firstSeen (tokenize text)).map
              (fun w => (w, (tokenize text).count w)))).take topN).filter
                (fun q => (tokenize text).count q.1 = c)).map Prod.fst := by
          rw [List.filter_map]
          rfl
        have e2 : ((sortDesc Prod.snd ((firstSeen (tokenize text)).map
            (fun w => (w, (tokenize text).count w)))).take topN).filter
              (fun q => (tokenize text).count q.1 = c) =
            ((sortDesc Prod.snd ((firstSeen (tokenize text)).map
              (fun w => (w, (tokenize text).count w)))).take topN).filter
                (fun q : String × ℕ => q.2 = c) :=
          List.filter_congr fun q hq => by rw [← hmem_mc q hq]
        have e3 : ((sortDesc Prod.snd ((firstSeen (tokenize text)).map
            (fun w => (w, (tokenize text).count w)))).take topN).filter
              (fun q : String × ℕ => q.2 = c) <+:
            (sortDesc Prod.snd ((firstSeen (tokenize text)).map
              (fun w => (w, (tokenize text).count w)))).filter
                (fun q : String × ℕ => q.2 = c) :=
          (List.take_prefix _ _).filter _
        have e4 : (sortDesc Prod.snd ((firstSeen (tokenize text)).map
            (fun w => (w, (tokenize text).count w)))).filter
              (fun q : String × ℕ => q.2 = c) =
            ((firstSeen (tokenize text)).map
              (fun w => (w, (tokenize text).count w))).filter
                (fun q : String × ℕ => q.2 = c) :=
          filter_sortDesc Prod.snd c _
        have e5 : ((firstSeen (tokenize text)).map
            (fun w => (w, (tokenize text).count w))).filter
              (fun q : String × ℕ => q.2 = c) =
            ((firstSeen (tokenize text)).filter
              (fun w => (tokenize text).count w = c)).map
                (fun w => (w, (tokenize text).count w)) := by
          rw [List.filter_map]
          rfl
        have e6 : (((firstSeen (tokenize text)).filter
            (fun w => (tokenize text).count w = c)).map
              (fun w => (w, (tokenize text).count w))).map Prod.fst =
            (firstSeen (tokenize text)).filter
              (fun w => (tokenize text).count w = c) := by
          rw [List.map_map]
          exact List.map_id _
        rw [e1, e2]
        have h := e3.map Prod.fst
        rw [e4, e5, e6] at h
        exact h

/-- Closed witness for C7: the membership and emptiness hypotheses of
`keyword_extraction_ranking` discharged at concrete inputs. -/
theorem keyword_extraction_ranking_witness :
    "y" ∈ ((fun (t : String) => [t, t, "x"]) "y") ∧
    extract_keywords (fun (t : String) => [t, t, "x"]) "" 5 = [] ∧
    extract_keywords (fun _ => []) "텍스트" 5 = [] := by
  refine ⟨?_, ?_, ?_⟩
  · exact (keyword_extraction_ranking (fun t => [t, t, "x"]) "y" 2).2.2.1 "y"
      (by decide)
  · exact (keyword_extraction_ranking (fun t => [t, t, "x"]) "" 5).2.2.2.2.2.1 rfl
  · exact (keyword_extraction_ranking (fun _ => []) "텍스트" 5).2.2.2.2.2.2 rfl
